import Mathlib

/-!
Verification development for the TideWatch frontend (src/frontend/js/app.js and
the consolidated variant in src/unnamed/part_000).  JavaScript numbers are
modelled as exact rationals (ℚ), timestamps as integer milliseconds since the
Unix epoch, and DOM/canvas side effects as explicit lists of render operations.
-/

namespace TideWatch

/-- A tide prediction as delivered by the backend:
`{ time, height, type: 'H'|'L', time_12hr? }`.  `time` is modelled as integer
milliseconds since the Unix epoch (UTC); `time12` models the optional
server-supplied `time_12hr` string. -/
structure Pred where
  time : ℤ
  height : ℚ
  ptype : String
  time12 : Option String
  deriving Repr, DecidableEq

/-! ## Tide dial renderer (`updateTideDial`)

The source builds an SVG path as a polyline of points
`(120 + 80·cos θᵢ, 120 + 80·sin θᵢ)` for a list of angles `θᵢ` (in degrees).
We embed the renderer as the function producing that list of angles:
`none` models `arc.setAttribute('d', '')` (the empty-path branch), and
`some angles` models the emitted `M/L` polyline, each vertex being the point
on the circle of radius 80 centred at (120,120) at the corresponding angle. -/

/-- Embedding of `updateTideDial(percentage, isRising)` from
`src/frontend/js/app.js` lines 428–487 (identical logic in
`src/unnamed/part_000` lines 708–748, with the constants taken from
`TIDE_DIAL`).  Returns the list of polyline vertex angles in degrees, or
`none` when the path attribute is set to the empty string. -/
def updateTideDial (percentage : ℚ) (isRising : Bool) : Option (List ℚ) :=
  -- if (percentage < 0.01) { arc.setAttribute('d', ''); return; }
  if percentage < 1/100 then none
  else
    -- percentage = Math.max(0, Math.min(1, percentage));
    let p := max 0 (min 1 percentage)
    -- const numSegments = Math.max(20, Math.floor(percentage * 50));
    let numSegments : ℕ := max 20 (Int.toNat ⌊p * 50⌋)
    -- const totalAngle = percentage * 180;
    let totalAngle := p * 180
    let start : ℚ := if isRising then 90 else 270
    -- for (let i = 0; i <= numSegments; i++) angle = start + progress * totalAngle
    some ((List.range (numSegments + 1)).map
      (fun i : ℕ => start + ((i : ℚ) / (numSegments : ℚ)) * totalAngle))

/-! ## Tide chart renderer (`createTideChart`)

The chart renderer (app.js lines 491–711, part_000 lines 759–961) sorts the
predictions, windows them into yesterday / today / tomorrow relative to local
midnight (`todayStart`, in epoch milliseconds), builds the bridged point set
`allTides`, maps it to pixel coordinates, smooths with a Catmull-Rom spline and
emits canvas drawing commands.  We embed the drawing commands as an explicit
`List ChartOp`. -/

/-- `a.time ≤ b.time`: the comparator `(a, b) => new Date(a.time) - new Date(b.time)`
used by `predictions.sort` and `day.tides.sort`. -/
def timeLE (a b : Pred) : Prop := a.time ≤ b.time

instance : DecidableRel timeLE := fun a b => inferInstanceAs (Decidable (a.time ≤ b.time))

instance : IsTotal Pred timeLE := ⟨fun a b => le_total a.time b.time⟩

instance : IsTrans Pred timeLE := ⟨fun _ _ _ h1 h2 => le_trans h1 h2⟩

/-- `[...predictions].sort((a, b) => new Date(a.time) - new Date(b.time))`:
a stable sort by time (JavaScript `Array.prototype.sort` is stable). -/
def sortedPredictions (preds : List Pred) : List Pred :=
  List.insertionSort timeLE preds

/-- One day in milliseconds (`86400000` in the source). -/
def msPerDay : ℤ := 86400000

/-- `filterByRange(start, end)`: predictions `p` with `start ≤ p.time < end`. -/
def filterByRange (l : List Pred) (start stop : ℤ) : List Pred :=
  l.filter (fun p => decide (start ≤ p.time ∧ p.time < stop))

/-- A prediction `p` falls in the half-open window `[start, stop)`. -/
def inWindow (start stop : ℤ) (p : Pred) : Prop :=
  start ≤ p.time ∧ p.time < stop

/-- An entry of the bridged point set `allTides`: a prediction spread together
with the `isToday` tag (`{ ...t, isToday }` in the source). -/
structure Tagged where
  pred : Pred
  isToday : Bool
  deriving Repr, DecidableEq

/-- The optional context entry contributed by an adjacent day: the guarded
`allTides.push({ ...p, isToday: false })`. -/
def ctxOf (o : Option Pred) : List Tagged :=
  match o with
  | some y => [⟨y, false⟩]
  | none => []

/-- Embedding of the bridged point-set construction of `createTideChart`
(app.js lines 543–566): sort, partition into yesterday / today / tomorrow by
local-midnight boundaries, then emit last-of-yesterday (context), all of
today (tagged `isToday`), and first-of-tomorrow (context). -/
def allTides (todayStart : ℤ) (preds : List Pred) : List Tagged :=
  let sorted := sortedPredictions preds
  let todayEnd := todayStart + msPerDay
  let yesterdayStart := todayStart - msPerDay
  let tomorrowEnd := todayEnd + msPerDay
  let yesterdayTides := filterByRange sorted yesterdayStart todayStart
  let todayTides := filterByRange sorted todayStart todayEnd
  let tomorrowTides := filterByRange sorted todayEnd tomorrowEnd
  ctxOf yesterdayTides.getLast? ++
  todayTides.map (fun t => ⟨t, true⟩) ++
  ctxOf tomorrowTides.head?

/-- A mapped chart point (pixel coordinates plus the data carried along). -/
structure ChartPoint where
  x : ℚ
  y : ℚ
  height : ℚ
  ptype : String
  isToday : Bool
  deriving Repr, DecidableEq

/-- Placeholder chart point used only for out-of-range `getD` accesses that
cannot occur on the index ranges the source uses. -/
def dummyPoint : ChartPoint := ⟨0, 0, 0, "", false⟩

/-- Chart paddings from the source (`{ top: 22, right: 12, bottom: 26, left: 36 }`). -/
def padTop : ℚ := 22

/-- Right chart padding. -/
def padRight : ℚ := 12

/-- Bottom chart padding. -/
def padBottom : ℚ := 26

/-- Left chart padding. -/
def padLeft : ℚ := 36

/-- `chartW = width - padding.left - padding.right`. -/
def chartW (w : ℚ) : ℚ := w - padLeft - padRight

/-- `chartH = height - padding.top - padding.bottom`. -/
def chartH (h : ℚ) : ℚ := h - padTop - padBottom

/-- `hoursToX = (hrs) => padding.left + (hrs / 24) * chartW`. -/
def hoursToX (w hrs : ℚ) : ℚ := padLeft + hrs / 24 * chartW w

/-- `heightToY = (h) => padding.top + (1 - (h - minH) / hRange) * chartH`. -/
def heightToY (h : ℚ) (minH maxH : ℤ) (ht : ℚ) : ℚ :=
  padTop + (1 - (ht - (minH : ℚ)) / ((maxH : ℚ) - (minH : ℚ))) * chartH h

/-- `Math.min(...list)` for a nonempty list (the source only applies it to the
nonempty `heights`); `0` for the empty list. -/
def listMin : List ℚ → ℚ
  | [] => 0
  | a :: rest => rest.foldl min a

/-- `Math.max(...list)` for a nonempty list; `0` for the empty list. -/
def listMax : List ℚ → ℚ
  | [] => 0
  | a :: rest => rest.foldl max a

/-- `minH = Math.floor(Math.min(...heights) - 1)` for a bridged point set. -/
def chartMinH (A : List Tagged) : ℤ := ⌊listMin (A.map (fun a => a.pred.height)) - 1⌋

/-- `maxH = Math.ceil(Math.max(...heights) + 1)` for a bridged point set. -/
def chartMaxH (A : List Tagged) : ℤ := ⌈listMax (A.map (fun a => a.pred.height)) + 1⌉

/-- Pixel-coordinate mapping of the bridged point set (app.js lines 588–598):
`hoursSinceMidnight = (t - todayStart) / 3600000`, then `hoursToX` / `heightToY`. -/
def mapPoints (w h : ℚ) (todayStart : ℤ) (A : List Tagged) : List ChartPoint :=
  let minH := chartMinH A
  let maxH := chartMaxH A
  A.map (fun a =>
    { x := hoursToX w (((a.pred.time - todayStart : ℤ) : ℚ) / 3600000)
      y := heightToY h minH maxH a.pred.height
      height := a.pred.height
      ptype := a.pred.ptype
      isToday := a.isToday })

/-- Embedding of the Catmull-Rom basis function `catmullRom(p0, p1, p2, p3, t)`
(app.js lines 611–621, part_000 lines 866–875). -/
def catmullRom (p0 p1 p2 p3 t : ℚ) : ℚ :=
  let t2 := t * t
  let t3 := t2 * t
  (1/2) * ((2 * p1) + (-p0 + p2) * t + (2 * p0 - 5 * p1 + 4 * p2 - p3) * t2 +
    (-p0 + 3 * p1 - 3 * p2 + p3) * t3)

/-- The 40 spline samples of segment `i` (`for (let t = 0; t < 1; t += 0.025)`
taken with exact rational arithmetic, i.e. `t = k/40` for `k = 0 … 39`; the
source's floating-point accumulation of `0.025` may produce one extra sample
per segment, which affects no claim considered here).  Control points are
`points[Math.max(0, i-1)], points[i], points[i+1], points[Math.min(len-1, i+2)]`;
natural-number subtraction matches `Math.max(0, i-1)`. -/
def segmentSamples (pts : List ChartPoint) (i : ℕ) : List (ℚ × ℚ) :=
  let p0 := pts.getD (i - 1) dummyPoint
  let p1 := pts.getD i dummyPoint
  let p2 := pts.getD (i + 1) dummyPoint
  let p3 := pts.getD (min (pts.length - 1) (i + 2)) dummyPoint
  (List.range 40).map (fun k : ℕ =>
    (catmullRom p0.x p1.x p2.x p3.x ((k : ℚ) / 40),
     catmullRom p0.y p1.y p2.y p3.y ((k : ℚ) / 40)))

/-- The generated smooth curve (app.js lines 624–638): the concatenated segment
samples followed by `curvePoints.push(points[points.length - 1])`. -/
def curvePoints (pts : List ChartPoint) : List (ℚ × ℚ) :=
  ((List.range (pts.length - 1)).flatMap (segmentSamples pts)) ++
    [((pts.getD (pts.length - 1) dummyPoint).x, (pts.getD (pts.length - 1) dummyPoint).y)]

/-- A canvas drawing command emitted by `createTideChart`.  Numeric label
commands carry the rational value rendered (`toFixed` formatting abstracted). -/
inductive ChartOp where
  | clear
  | gridLine (y : ℚ)
  | curve (pts : List (ℚ × ℚ))
  | marker (x y : ℚ) (high : Bool)
  | heightLabel (height : ℚ) (x y : ℚ)
  | timeIndicator (x : ℚ)
  | yAxisLabel (value : ℚ) (x y : ℚ)
  | xAxisLabel (text : String) (x y : ℚ)
  | textMsg (s : String) (x y : ℚ)
  deriving Repr, DecidableEq

/-- Heights at which the gridline loop `for (let h = minH; h <= maxH; h += 2.5)`
draws, i.e. `minH + k * 2.5` for `k = 0 … ⌊(maxH - minH)/2.5⌋`. -/
def gridHeights (minH maxH : ℤ) : List ℚ :=
  (List.range ((2 * (maxH - minH)).toNat / 5 + 1)).map
    (fun k : ℕ => (minH : ℚ) + (k : ℚ) * (5/2))

/-- `now.getHours() + now.getMinutes() / 60` with `now` expressed relative to
the local midnight `todayStart` (seconds are dropped, as in the source). -/
def currentHoursOfDay (todayStart now : ℤ) : ℚ :=
  let delta := now - todayStart
  ((delta.fdiv 3600000 : ℤ) : ℚ) + (((delta.fdiv 60000) % 60 : ℤ) : ℚ) / 60

/-- The marker and height-label commands: `points.forEach(pt => { if
(!pt.isToday) return; ... })` (app.js lines 658–675); label offset is
`pt.y + 15` for highs and `pt.y - 15` for lows. -/
def pointOps (pts : List ChartPoint) : List ChartOp :=
  pts.flatMap (fun pt =>
    if pt.isToday then
      [ChartOp.marker pt.x pt.y (decide (pt.ptype = "H")),
       ChartOp.heightLabel pt.height pt.x
         (if pt.ptype = "H" then pt.y + 15 else pt.y - 15)]
    else [])

/-- The fixed x-axis hour labels `[0,'12AM'] … [24,'12AM']`. -/
def timeLabels : List (ℚ × String) :=
  [(0, "12AM"), (4, "4AM"), (8, "8AM"), (12, "12PM"), (16, "4PM"), (20, "8PM"), (24, "12AM")]

/-- Embedding of `createTideChart(predictions, currentLevel)` as the sequence of
canvas drawing commands it issues (app.js lines 491–711).  `w`/`h` are the CSS
pixel dimensions, `todayStart` the local midnight and `now` the current time in
epoch milliseconds.  When the bridged point set has fewer than 2 points, only
the clear and the centred "Insufficient tide data" message are issued. -/
def chartOps (w h : ℚ) (todayStart now : ℤ) (preds : List Pred) : List ChartOp :=
  let A := allTides todayStart preds
  if A.length < 2 then
    [ChartOp.clear, ChartOp.textMsg "Insufficient tide data" (w / 2) (h / 2)]
  else
    let minH := chartMinH A
    let maxH := chartMaxH A
    let pts := mapPoints w h todayStart A
    ChartOp.clear ::
      ((gridHeights minH maxH).map (fun gh => ChartOp.gridLine (heightToY h minH maxH gh)) ++
       [ChartOp.curve (curvePoints pts)] ++
       pointOps pts ++
       [ChartOp.timeIndicator (hoursToX w (currentHoursOfDay todayStart now))] ++
       (gridHeights minH maxH).map (fun gh => ChartOp.yAxisLabel gh (padLeft - 6) (heightToY h minH maxH gh)) ++
       timeLabels.map (fun tl => ChartOp.xAxisLabel tl.2 (hoursToX w tl.1) (h - padBottom + 6)))

/-! ## Tide table renderer (`createTideTable`)

The table groups predictions by the string key
`` `${getFullYear()}-${getMonth()+1}-${getDate()}` `` of the *local* date of
each timestamp.  We model a timestamp as epoch milliseconds plus a timezone
offset `tz` (milliseconds to add to UTC to obtain local wall-clock time), and
the key as the `(year, month, day)` triple of the local calendar date, computed
by the standard proleptic-Gregorian conversion `civilFromDays` (which is what
`Date`'s local accessors implement once the local day number is fixed).
Equality of the zero-padded key strings coincides with equality of the triples,
and `Object.keys(...).sort()` orders the zero-padded strings exactly as the
lexicographic order `dkLE` on the triples. -/

/-- Days-to-civil-date conversion (proleptic Gregorian): maps a day count since
1970-01-01 to `(year, month, day)`.  Models the local calendar date that
`getFullYear`/`getMonth`/`getDate` report for a timestamp on that local day. -/
def civilFromDays (z : ℤ) : ℤ × ℤ × ℤ :=
  let z' := z + 719468
  let era := z'.fdiv 146097
  let doe := z' - era * 146097
  let yoe := (doe - doe / 1460 + doe / 36524 - doe / 146096) / 365
  let y := yoe + era * 400
  let doy := doe - (365 * yoe + yoe / 4 - yoe / 100)
  let mp := (5 * doy + 2) / 153
  let d := doy - (153 * mp + 2) / 5 + 1
  let m := mp + (if mp < 10 then 3 else -9)
  (y + (if m ≤ 2 then 1 else 0), m, d)

/-- The grouping key `` `${year}-${month}-${day}` `` (local date) of a
timestamp `t`, for timezone offset `tz` (both in milliseconds). -/
def dateKey (tz t : ℤ) : ℤ × ℤ × ℤ :=
  civilFromDays ((t + tz).fdiv 86400000)

/-- The UTC calendar date of a timestamp — what the grouping key would be if
the source used `getUTCFullYear`/`getUTCMonth`/`getUTCDate` instead. -/
def utcDateKey (t : ℤ) : ℤ × ℤ × ℤ :=
  civilFromDays (t.fdiv 86400000)

/-- Lexicographic order on `(year, month, day)` keys: the order in which
`Object.keys(dayGroups).sort()` arranges the zero-padded date strings. -/
def dkLE (a b : ℤ × ℤ × ℤ) : Prop :=
  a.1 < b.1 ∨ (a.1 = b.1 ∧ (a.2.1 < b.2.1 ∨ (a.2.1 = b.2.1 ∧ a.2.2 ≤ b.2.2)))

instance : DecidableRel dkLE := fun a b => by unfold dkLE; infer_instance

instance : IsTotal (ℤ × ℤ × ℤ) dkLE :=
  ⟨fun a b => by unfold dkLE; omega⟩

instance : IsTrans (ℤ × ℤ × ℤ) dkLE :=
  ⟨fun a b c h1 h2 => by unfold dkLE at *; omega⟩

/-- Comparator on day groups: lexicographic order of their date keys. -/
def groupLE (a b : (ℤ × ℤ × ℤ) × List Pred) : Prop := dkLE a.1 b.1

instance : DecidableRel groupLE := fun a b => inferInstanceAs (Decidable (dkLE a.1 b.1))

instance : IsTotal ((ℤ × ℤ × ℤ) × List Pred) groupLE :=
  ⟨fun a b => IsTotal.total (r := dkLE) a.1 b.1⟩

instance : IsTrans ((ℤ × ℤ × ℤ) × List Pred) groupLE :=
  ⟨fun _ _ _ h1 h2 => IsTrans.trans (r := dkLE) _ _ _ h1 h2⟩

/-- `dayGroups[dateKey].tides.push(pred)`, creating the group on first use:
appends `p` to the first group with key `k`, or appends a fresh group `(k, [p])`
at the end (JavaScript objects preserve insertion order for string keys). -/
def addToGroups (gs : List ((ℤ × ℤ × ℤ) × List Pred)) (k : ℤ × ℤ × ℤ) (p : Pred) :
    List ((ℤ × ℤ × ℤ) × List Pred) :=
  match gs with
  | [] => [(k, [p])]
  | g :: rest =>
      if g.1 = k then (g.1, g.2 ++ [p]) :: rest
      else g :: addToGroups rest k p

/-- The `dayGroups` object built by `predictions.forEach` in `createTideTable`
(app.js lines 717–745), as an insertion-ordered association list. -/
def dayGroupsList (tz : ℤ) (preds : List Pred) : List ((ℤ × ℤ × ℤ) × List Pred) :=
  preds.foldl (fun gs p => addToGroups gs (dateKey tz p.time) p) []

/-- The tide list of the group with key `k` (empty if there is no such group):
the lookup that `dayGroups[dateKey]` performs. -/
def getGroup (gs : List ((ℤ × ℤ × ℤ) × List Pred)) (k : ℤ × ℤ × ℤ) : List Pred :=
  match gs.find? (fun g => decide (g.1 = k)) with
  | some g => g.2
  | none => []

/-- One rendered cell of a table row: a tide slot (direction marker, height,
12-hour time string) or the empty placeholder `—`. -/
inductive Cell where
  | tide (icon : String) (height : ℚ) (timeStr : String)
  | emptyDash
  deriving Repr, DecidableEq

/-- One rendered table row: the day's date key and its four cells. -/
structure Row where
  key : ℤ × ℤ × ℤ
  cells : List Cell
  deriving Repr, DecidableEq

/-- JavaScript `a || b` for an optional string `a`: the fallback fires on
`undefined` and on the falsy empty string. -/
def orFalsy (a : Option String) (b : String) : String :=
  match a with
  | some s => if s = "" then b else s
  | none => b

/-- Placeholder prediction for out-of-range `getD` accesses. -/
def dummyPred : Pred := ⟨0, 0, "", none⟩

/-- One tide cell: `▲`/`▼` by `tide.type === 'H'`, the height, and
`tide.time_12hr || formatTime(tide.time)` where `fmt` stands for the
`formatTime` fallback applied to the raw timestamp. -/
def mkCell (fmt : ℤ → String) (t : Pred) : Cell :=
  Cell.tide (if t.ptype = "H" then "▲" else "▼") t.height (orFalsy t.time12 (fmt t.time))

/-- One table row (app.js lines 762–806): four slots, slot `i` showing the
day's `(i+1)`-th tide when it exists and the `—` placeholder otherwise. -/
def mkRow (fmt : ℤ → String) (k : ℤ × ℤ × ℤ) (tides : List Pred) : Row :=
  ⟨k, (List.range 4).map (fun i =>
      if i < tides.length then mkCell fmt (tides.getD i dummyPred) else Cell.emptyDash)⟩

/-- Embedding of `createTideTable(predictions)` (app.js lines 717–812): group
by local date, sort each day's tides ascending by time, sort the day keys,
keep the first 5 days, and emit one row of four cells per day. -/
def createTideTable (tz : ℤ) (fmt : ℤ → String) (preds : List Pred) : List Row :=
  let groups := dayGroupsList tz preds
  let sortedGroups := (List.insertionSort groupLE groups).take 5
  sortedGroups.map (fun g => mkRow fmt g.1 (List.insertionSort timeLE g.2))

/-! ## Tide fetch (`loadTideData`)

`loadTideData` (app.js lines 234–258, identical in part_000 lines 384–406) is
embedded as a transition on the tide-relevant slice of the global `state`
object; DOM side effects are returned as an action list.  The fetched payload
is opaque to the claim, so it is a type parameter. -/

/-- The tide-relevant slice of the global `state` object. -/
structure AppTideState (D : Type) where
  tideData : Option D
  lastUpdate : Option ℤ
  isConnected : Bool

/-- The outcome of `fetch('/api/tide')` + `response.json()`: a parsed envelope
with `status === 'ok'` and a payload, a parsed envelope with any other status,
or a rejected promise (network/transport error or malformed JSON). -/
inductive TideFetchResult (D : Type) where
  | ok (data : D)
  | errStatus (message : String)
  | netError

/-- DOM side effects of `loadTideData`. -/
inductive TideAction (D : Type) where
  | displayTideData (d : D)
  | setTidePlaceholders
  | updateConnStatus (b : Bool)

/-- Embedding of `loadTideData` (app.js lines 234–258): on `status === 'ok'`
store the payload, mark connected, display, and set the last-update timestamp
to `now`; on a non-ok status only invoke the placeholder setter; on a rejected
fetch or JSON parse failure clear the connectivity flag and invoke the
placeholder setter.  The stored tide data and timestamp are untouched on both
error paths. -/
def loadTideData {D : Type} (s : AppTideState D) (r : TideFetchResult D) (now : ℤ) :
    AppTideState D × List (TideAction D) :=
  match r with
  | TideFetchResult.ok d =>
      ({ s with tideData := some d, isConnected := true, lastUpdate := some now },
       [TideAction.displayTideData d])
  | TideFetchResult.errStatus _ =>
      (s, [TideAction.setTidePlaceholders])
  | TideFetchResult.netError =>
      ({ s with isConnected := false },
       [TideAction.updateConnStatus false, TideAction.setTidePlaceholders])

/-! ## Swipe controllers (`initSwipe` / `initDialSwipe`)

Both `endDrag` closures (app.js lines 921–933 and 1005–1017) have the same
shape and differ only in the threshold (50 px for the panel controller, 30 px
for the dial controller). -/

/-- Embedding of the `endDrag` closure: given the drag state at the up/leave
event, the next view index.  `thr` is the swipe threshold. -/
def endDragStep (thr : ℚ) (isDragging : Bool) (startX currentX : ℚ) (currentView : ℤ) : ℤ :=
  if isDragging = false then currentView
  else
    let diff := startX - currentX
    if thr < |diff| then
      if 0 < diff ∧ currentView < 1 then currentView + 1
      else if diff < 0 ∧ 0 < currentView then currentView - 1
      else currentView
    else currentView

/-- The panel controller's `endDrag` (threshold `> 50`). -/
def initSwipeEndDrag : Bool → ℚ → ℚ → ℤ → ℤ := endDragStep 50

/-- The dial controller's `endDrag` (threshold `> 30`). -/
def initDialSwipeEndDrag : Bool → ℚ → ℚ → ℤ → ℤ := endDragStep 30

/-! ## Refresh timers (`initApp`)

The two `initApp` variants arm different `setInterval` timers.  Each timer is
recorded as the name of the callback plus its fixed period in milliseconds. -/

/-- One `setInterval(callback, periodMs)` registration. -/
structure TimerSpec where
  callback : String
  periodMs : ℕ
  deriving Repr, DecidableEq

/-- The timers armed by `initApp` in `src/frontend/js/app.js` (lines 121–160):
clock every second, tide every 6 minutes, astronomy every hour; no weather and
no network-connectivity timer. -/
def appJsInitTimers : List TimerSpec :=
  [⟨"updateClock", 1000⟩, ⟨"loadTideData", 360000⟩, ⟨"loadAstronomyData", 3600000⟩]

/-- The timers armed by `initApp` in the consolidated variant
`src/unnamed/part_000` (lines 252–278), with the periods of
`REFRESH_INTERVALS` (lines 12–19). -/
def part000InitTimers : List TimerSpec :=
  [⟨"updateClock", 1000⟩, ⟨"loadTideData", 360000⟩, ⟨"loadAstronomyData", 43200000⟩,
   ⟨"loadWeatherData", 600000⟩, ⟨"checkNetworkConnectivity", 60000⟩]

/-- Modelled from the claim's words (for comparison with the code-derived timer
lists): the four re-polling timers the claim asserts, with their periods. -/
def claimedPollTimers : List (String × ℕ) :=
  [("loadTideData", 360000), ("loadWeatherData", 600000),
   ("loadAstronomyData", 43200000), ("checkNetworkConnectivity", 60000)]

/-! ## `formatTime`

`formatTime` (app.js lines 386–414) depends on two browser built-ins: `new
Date(string)` (modelled as a partial parse returning `none` exactly when
`isNaN(date.getTime())`) and `toLocaleTimeString('en-US', {hour12: true})`
(modelled as an abstract renderer).  Both are passed as parameters. -/

/-- `pat` occurs at the start of `l`. -/
def leadsIn : List Char → List Char → Bool
  | [], _ => true
  | _ :: _, [] => false
  | a :: as, b :: bs => a = b && leadsIn as bs

/-- `pat` occurs as a contiguous substring of `l` (JavaScript
`String.prototype.includes`, case-sensitive). -/
def containsSub (pat : List Char) : List Char → Bool
  | [] => pat.isEmpty
  | b :: rest => leadsIn pat (b :: rest) || containsSub pat rest

/-- `timeString.includes('AM') || timeString.includes('PM')`. -/
def hasAMPM (s : String) : Bool :=
  containsSub "AM".data s.data || containsSub "PM".data s.data

/-- Embedding of `formatTime(timeString)` (app.js lines 386–414): `none`
models `null`/`undefined`; the empty string is falsy in JavaScript so it also
takes the `'--:--'` branch; a string containing `AM` or `PM` is returned
unchanged; otherwise the string is parsed and rendered in 12-hour format, with
`'--:--'` for unparseable input.  The `try`/`catch` around the body can never
fire in the model (every branch is total), matching the source where
`new Date` never throws on a string argument. -/
def formatTime (parse : String → Option ℤ) (render12 : ℤ → String)
    (timeString : Option String) : String :=
  match timeString with
  | none => "--:--"
  | some s =>
    if s = "" then "--:--"
    else if hasAMPM s then s
    else
      match parse s with
      | none => "--:--"
      | some t => render12 t

/-- A parse function that rejects every string (used to instantiate witnesses). -/
def rejectAllParse : String → Option ℤ := fun _ => none

/-- A renderer producing a fixed 12-hour string (used to instantiate witnesses). -/
def fixedRender12 : ℤ → String := fun _ => "12:00 AM"

/-! ## Concrete example data

US Pacific Daylight Time (UTC−7) and the two predictions of the spec's
table-grouping boundary scenario: local `2025-06-01 23:50` and local
`2025-06-02 00:10`, i.e. epoch milliseconds `1748847000000` and
`1748848200000`. -/

/-- UTC−7 (Pacific Daylight Time) as a millisecond offset. -/
def pdtOffsetMs : ℤ := -25200000

/-- A prediction at local time `2025-06-01 23:50` PDT. -/
def predLateNight : Pred := ⟨1748847000000, 1, "H", none⟩

/-- A prediction at local time `2025-06-02 00:10` PDT. -/
def predEarlyMorning : Pred := ⟨1748848200000, 3, "L", none⟩

/-- Two predictions inside the local day starting at epoch 0 (01:00 and 02:00),
used to exercise the drawn-chart branch. -/
def exPreds : List Pred := [⟨3600000, 1, "L", none⟩, ⟨7200000, 2, "H", none⟩]

/-! # Theorems -/

/-- The head of a map over `List.range (n+1)` is the image of `0`. -/
theorem rangeMap_head {α : Type} (n : ℕ) (f : ℕ → α) :
    ((List.range (n + 1)).map f).head? = some (f 0) := by
  rw [List.range_succ_eq_map]
  simp

/-- The last element of a map over `List.range (n+1)` is the image of `n`. -/
theorem rangeMap_last {α : Type} (n : ℕ) (f : ℕ → α) :
    ((List.range (n + 1)).map f).getLast? = some (f n) := by
  rw [List.range_succ, List.map_append]
  simp

/-- The head of a map over a nonempty `List.range n` is the image of `0`. -/
theorem rangeMap_headPos {α : Type} (n : ℕ) (hn : n ≠ 0) (f : ℕ → α) :
    ((List.range n).map f).head? = some (f 0) := by
  obtain ⟨m, rfl⟩ := Nat.exists_eq_succ_of_ne_zero hn
  exact rangeMap_head m f

/-- An element selected by `head?` is a member of the list. -/
theorem head?_mem_self {α : Type} {l : List α} {a : α} (h : l.head? = some a) : a ∈ l := by
  cases l with
  | nil => simp at h
  | cons b t =>
    simp only [List.head?_cons, Option.some.injEq] at h
    exact h ▸ List.mem_cons_self b t

/-- An element selected by `getLast?` is a member of the list. -/
theorem getLast?_mem_self {α : Type} {l : List α} {a : α} (h : l.getLast? = some a) :
    a ∈ l := by
  induction l with
  | nil => simp at h
  | cons b t ih =>
    cases t with
    | nil => simp_all
    | cons c t2 =>
      rw [List.getLast?_cons_cons] at h
      exact List.mem_cons_of_mem _ (ih h)

/-- The dial angle list emitted when the percentage is at least the 0.01
threshold. -/
theorem updateTideDial_eq_some {p : ℚ} (hp : 1/100 ≤ p) (r : Bool) :
    updateTideDial p r =
      some ((List.range (max 20 (Int.toNat ⌊min 1 p * 50⌋) + 1)).map
        (fun i : ℕ => (if r then (90:ℚ) else 270) +
          ((i : ℚ) / ((max 20 (Int.toNat ⌊min 1 p * 50⌋) : ℕ) : ℚ)) * (min 1 p * 180))) := by
  have hnl : ¬ p < 1/100 := not_lt.mpr hp
  have hp0 : (0:ℚ) ≤ p := le_trans (by norm_num) hp
  have hmax : max 0 (min 1 p) = min 1 p := max_eq_right (le_min (by norm_num) hp0)
  simp only [updateTideDial, hnl, if_false, hmax]

/-- **C1.** For every call to `updateTideDial(percentage, is_rising)`: when
`percentage < 0.01` the arc path is set to the empty string; otherwise, with
the percentage clamped to `[0, 1]`, the emitted polyline's angle sequence
starts at 90° when rising and at 270° when falling (0°=right, 90°=down,
180°=left, 270°=up), increases monotonically, and sweeps exactly
`clamp(percentage) * 180` degrees; every polyline vertex
`(120 + 80·cos θ, 120 + 80·sin θ)` lies on the circle of radius 80 centred at
`(120, 120)`. -/
theorem c1_dial_arc_geometry (p : ℚ) (r : Bool) :
    (p < 1/100 → updateTideDial p r = none) ∧
    (1/100 ≤ p →
      ∃ angles : List ℚ,
        updateTideDial p r = some angles ∧
        angles.head? = some (if r then (90:ℚ) else 270) ∧
        angles.getLast? = some ((if r then (90:ℚ) else 270) + min p 1 * 180) ∧
        angles.Pairwise (· ≤ ·) ∧
        ∀ θ ∈ angles,
          (120 + 80 * Real.cos ((θ:ℝ) * Real.pi / 180) - 120) ^ 2 +
            (120 + 80 * Real.sin ((θ:ℝ) * Real.pi / 180) - 120) ^ 2 = 80 ^ 2) := by
  constructor
  · intro h
    simp only [updateTideDial]
    rw [if_pos h]
  · intro hp
    have hp0 : (0:ℚ) ≤ p := le_trans (by norm_num) hp
    have hmin0 : (0:ℚ) ≤ min 1 p := le_min (by norm_num) hp0
    have h20 : 20 ≤ max 20 (Int.toNat ⌊min 1 p * 50⌋) := le_max_left _ _
    have hnQ : (0:ℚ) < ((max 20 (Int.toNat ⌊min 1 p * 50⌋) : ℕ) : ℚ) := by
      have : 0 < max 20 (Int.toNat ⌊min 1 p * 50⌋) := by omega
      exact_mod_cast this
    refine ⟨_, updateTideDial_eq_some hp r, ?_, ?_, ?_, ?_⟩
    · rw [rangeMap_head]
      norm_num
    · rw [rangeMap_last]
      rw [div_self hnQ.ne', one_mul, min_comm]
    · refine List.Pairwise.map _ (fun a b hab => ?_) (List.pairwise_lt_range _)
      have hcast : (a : ℚ) ≤ (b : ℚ) := by exact_mod_cast hab.le
      have hT : (0:ℚ) ≤ min 1 p * 180 := by positivity
      exact add_le_add_left
        (mul_le_mul_of_nonneg_right ((div_le_div_iff_of_pos_right hnQ).mpr hcast) hT) _
    · intro θ _
      linear_combination (6400 : ℝ) * Real.sin_sq_add_cos_sq ((θ:ℝ) * Real.pi / 180)

/-- Witness for C1: `percentage = 1/2`, rising. -/
theorem c1_dial_arc_geometry_witness :
    ((1:ℚ)/100 ≤ 1/2) ∧
    (∃ angles : List ℚ,
      updateTideDial (1/2) true = some angles ∧
      angles.head? = some (if true then (90:ℚ) else 270) ∧
      angles.getLast? = some ((if true then (90:ℚ) else 270) + min (1/2 : ℚ) 1 * 180) ∧
      angles.Pairwise (· ≤ ·) ∧
      ∀ θ ∈ angles,
        (120 + 80 * Real.cos ((θ:ℝ) * Real.pi / 180) - 120) ^ 2 +
          (120 + 80 * Real.sin ((θ:ℝ) * Real.pi / 180) - 120) ^ 2 = 80 ^ 2) :=
  ⟨by norm_num, (c1_dial_arc_geometry (1/2) true).2 (by norm_num)⟩

/-- **C3.** For every mapped point list with at least 2 points: the Catmull-Rom
basis satisfies `catmullRom(p0,p1,p2,p3,0) = p1` exactly; the first sample of
every spline segment `i` is exactly the segment's start control point
`points[i]` (per coordinate); the appended final point makes the curve end
exactly at the last mapped point; hence the curve passes through every mapped
point. -/
theorem c3_spline_interpolates (pts : List ChartPoint) (hlen : 2 ≤ pts.length) :
    (∀ p0 p1 p2 p3 : ℚ, catmullRom p0 p1 p2 p3 0 = p1) ∧
    (∀ i, i < pts.length - 1 →
      (segmentSamples pts i).head? =
        some ((pts.getD i dummyPoint).x, (pts.getD i dummyPoint).y)) ∧
    ((curvePoints pts).getLast? =
      some ((pts.getD (pts.length - 1) dummyPoint).x,
            (pts.getD (pts.length - 1) dummyPoint).y)) ∧
    (∀ i, i < pts.length →
      ((pts.getD i dummyPoint).x, (pts.getD i dummyPoint).y) ∈ curvePoints pts) := by
  have hcr0 : ∀ p0 p1 p2 p3 : ℚ, catmullRom p0 p1 p2 p3 0 = p1 := by
    intro p0 p1 p2 p3
    simp only [catmullRom]
    ring
  have hseg : ∀ i, i < pts.length - 1 →
      (segmentSamples pts i).head? =
        some ((pts.getD i dummyPoint).x, (pts.getD i dummyPoint).y) := by
    intro i _
    simp only [segmentSamples]
    rw [rangeMap_headPos 40 (by norm_num)]
    norm_num [hcr0]
  refine ⟨hcr0, hseg, ?_, ?_⟩
  · simp only [curvePoints]
    rw [List.getLast?_concat]
  · intro i hi
    by_cases hend : i = pts.length - 1
    · subst hend
      simp only [curvePoints]
      exact List.mem_append_right _ (List.mem_singleton.mpr rfl)
    · have hi' : i < pts.length - 1 := by omega
      have hv := hseg i hi'
      refine List.mem_append_left _ (List.mem_flatMap.mpr ⟨i, List.mem_range.mpr hi', ?_⟩)
      exact head?_mem_self hv

/-- Witness for C3: a concrete two-point list; the curve ends exactly at the
second point. -/
theorem c3_spline_interpolates_witness :
    2 ≤ ([⟨0, 0, 0, "H", true⟩, ⟨10, 20, 5, "L", true⟩] : List ChartPoint).length ∧
    (curvePoints [⟨0, 0, 0, "H", true⟩, ⟨10, 20, 5, "L", true⟩]).getLast? =
      some ((([⟨0, 0, 0, "H", true⟩, ⟨10, 20, 5, "L", true⟩] : List ChartPoint).getD
              (([⟨0, 0, 0, "H", true⟩, ⟨10, 20, 5, "L", true⟩] : List ChartPoint).length - 1)
              dummyPoint).x,
            (([⟨0, 0, 0, "H", true⟩, ⟨10, 20, 5, "L", true⟩] : List ChartPoint).getD
              (([⟨0, 0, 0, "H", true⟩, ⟨10, 20, 5, "L", true⟩] : List ChartPoint).length - 1)
              dummyPoint).y) :=
  ⟨by decide,
   (c3_spline_interpolates [⟨0, 0, 0, "H", true⟩, ⟨10, 20, 5, "L", true⟩] (by decide)).2.2.1⟩

/-- Every operation emitted by the per-point loop belongs to an `isToday`
point: the loop returns early (`if (!pt.isToday) return;`) on context points. -/
theorem pointOps_mem {pts : List ChartPoint} {op : ChartOp} (hop : op ∈ pointOps pts) :
    ∃ pt ∈ pts, pt.isToday = true ∧
      (op = ChartOp.marker pt.x pt.y (decide (pt.ptype = "H")) ∨
       op = ChartOp.heightLabel pt.height pt.x
         (if pt.ptype = "H" then pt.y + 15 else pt.y - 15)) := by
  simp only [pointOps, List.mem_flatMap] at hop
  obtain ⟨pt, hpt, hmem⟩ := hop
  by_cases ht : pt.isToday = true
  · refine ⟨pt, hpt, ht, ?_⟩
    rw [if_pos ht] at hmem
    simp only [List.mem_cons, List.not_mem_nil, or_false] at hmem
    exact hmem
  · rw [if_neg ht] at hmem
    simp at hmem

/-- Every `isToday` point contributes its marker and its height label to the
per-point loop's operations. -/
theorem pointOps_mem_of_isToday {pts : List ChartPoint} {pt : ChartPoint}
    (hpt : pt ∈ pts) (ht : pt.isToday = true) :
    ChartOp.marker pt.x pt.y (decide (pt.ptype = "H")) ∈ pointOps pts ∧
    ChartOp.heightLabel pt.height pt.x
      (if pt.ptype = "H" then pt.y + 15 else pt.y - 15) ∈ pointOps pts := by
  constructor <;>
    · refine List.mem_flatMap.mpr ⟨pt, hpt, ?_⟩
      rw [if_pos ht]
      simp

/-- The command list of the drawn-chart branch, written out. -/
theorem chartOps_drawn (w h : ℚ) (todayStart now : ℤ) (preds : List Pred)
    (hlen : ¬ (allTides todayStart preds).length < 2) :
    chartOps w h todayStart now preds =
      ChartOp.clear ::
        ((gridHeights (chartMinH (allTides todayStart preds))
            (chartMaxH (allTides todayStart preds))).map
          (fun gh => ChartOp.gridLine (heightToY h (chartMinH (allTides todayStart preds))
            (chartMaxH (allTides todayStart preds)) gh)) ++
         [ChartOp.curve (curvePoints (mapPoints w h todayStart (allTides todayStart preds)))] ++
         pointOps (mapPoints w h todayStart (allTides todayStart preds)) ++
         [ChartOp.timeIndicator (hoursToX w (currentHoursOfDay todayStart now))] ++
         (gridHeights (chartMinH (allTides todayStart preds))
            (chartMaxH (allTides todayStart preds))).map
          (fun gh => ChartOp.yAxisLabel gh (padLeft - 6)
            (heightToY h (chartMinH (allTides todayStart preds))
              (chartMaxH (allTides todayStart preds)) gh)) ++
         timeLabels.map (fun tl => ChartOp.xAxisLabel tl.2 (hoursToX w tl.1)
           (h - padBottom + 6))) := by
  simp only [chartOps]
  rw [if_neg hlen]

/-- The command list of the insufficient-data branch, written out. -/
theorem chartOps_insufficient (w h : ℚ) (todayStart now : ℤ) (preds : List Pred)
    (hlt : (allTides todayStart preds).length < 2) :
    chartOps w h todayStart now preds =
      [ChartOp.clear, ChartOp.textMsg "Insufficient tide data" (w / 2) (h / 2)] := by
  simp only [chartOps]
  rw [if_pos hlt]

/-- Case analysis for membership in the drawn-chart branch of `chartOps`. -/
theorem chartOps_mem_cases {w h : ℚ} {todayStart now : ℤ} {preds : List Pred}
    {op : ChartOp}
    (hlen : ¬ (allTides todayStart preds).length < 2)
    (hop : op ∈ chartOps w h todayStart now preds) :
    op = ChartOp.clear ∨
    (∃ gh, op = ChartOp.gridLine gh) ∨
    op = ChartOp.curve (curvePoints (mapPoints w h todayStart (allTides todayStart preds))) ∨
    op ∈ pointOps (mapPoints w h todayStart (allTides todayStart preds)) ∨
    (∃ x, op = ChartOp.timeIndicator x) ∨
    (∃ v x y, op = ChartOp.yAxisLabel v x y) ∨
    (∃ s x y, op = ChartOp.xAxisLabel s x y) := by
  rw [chartOps_drawn w h todayStart now preds hlen] at hop
  rcases List.mem_cons.mp hop with rfl | hop
  · exact Or.inl rfl
  rcases List.mem_append.mp hop with hop | hop
  rcases List.mem_append.mp hop with hop | hop
  rcases List.mem_append.mp hop with hop | hop
  rcases List.mem_append.mp hop with hop | hop
  rcases List.mem_append.mp hop with hop | hop
  · obtain ⟨gh, -, hq⟩ := List.mem_map.mp hop
    exact Or.inr (Or.inl ⟨_, hq.symm⟩)
  · rcases List.mem_singleton.mp hop with rfl
    exact Or.inr (Or.inr (Or.inl rfl))
  · exact Or.inr (Or.inr (Or.inr (Or.inl hop)))
  · rcases List.mem_singleton.mp hop with rfl
    exact Or.inr (Or.inr (Or.inr (Or.inr (Or.inl ⟨_, rfl⟩))))
  · obtain ⟨v, -, hq⟩ := List.mem_map.mp hop
    exact Or.inr (Or.inr (Or.inr (Or.inr (Or.inr (Or.inl ⟨_, _, _, hq.symm⟩)))))
  · obtain ⟨tl, -, hq⟩ := List.mem_map.mp hop
    exact Or.inr (Or.inr (Or.inr (Or.inr (Or.inr (Or.inr ⟨_, _, _, hq.symm⟩)))))

/-- **C4.** When the bridged point set has fewer than 2 points, the chart
renderer clears the canvas and draws only the centred textual message
`'Insufficient tide data'` — no curve, markers, time indicator, grid or axis
labels; and this is the only such branch: with 2 or more bridged points no
such message is emitted and a curve is always drawn. -/
theorem c4_insufficient_data_branch (w h : ℚ) (todayStart now : ℤ) (preds : List Pred) :
    ((allTides todayStart preds).length < 2 →
      chartOps w h todayStart now preds =
        [ChartOp.clear, ChartOp.textMsg "Insufficient tide data" (w / 2) (h / 2)]) ∧
    (2 ≤ (allTides todayStart preds).length →
      (∀ s x y, ChartOp.textMsg s x y ∉ chartOps w h todayStart now preds) ∧
      (∃ c, ChartOp.curve c ∈ chartOps w h todayStart now preds)) := by
  constructor
  · intro hlt
    simp only [chartOps]
    rw [if_pos hlt]
  · intro hge
    have hnl : ¬ (allTides todayStart preds).length < 2 := not_lt.mpr hge
    constructor
    · intro s x y hmem
      rcases chartOps_mem_cases hnl hmem with h | ⟨_, h⟩ | h | h | ⟨_, h⟩ | ⟨_, _, _, h⟩ |
        ⟨_, _, _, h⟩ <;> first
        | cases h
        | · obtain ⟨pt, _, _, h | h⟩ := pointOps_mem h
            · cases h
            · cases h
    · refine ⟨curvePoints (mapPoints w h todayStart (allTides todayStart preds)), ?_⟩
      simp only [chartOps, hnl, if_false, List.mem_cons, List.mem_append]
      simp

/-- Witness for C4: the empty prediction list yields a bridged point set of
length 0 and precisely the clear plus the centred message. -/
theorem c4_insufficient_data_branch_witness :
    (allTides 0 []).length < 2 ∧
    chartOps 700 180 0 0 [] =
      [ChartOp.clear, ChartOp.textMsg "Insufficient tide data" (700 / 2) (180 / 2)] :=
  ⟨by decide, (c4_insufficient_data_branch 700 180 0 0 []).1 (by decide)⟩

/-- The bridged point set, written out. -/
theorem allTides_eq (todayStart : ℤ) (preds : List Pred) :
    allTides todayStart preds =
      ctxOf (filterByRange (sortedPredictions preds)
          (todayStart - msPerDay) todayStart).getLast? ++
      (filterByRange (sortedPredictions preds) todayStart (todayStart + msPerDay)).map
        (fun t => ⟨t, true⟩) ++
      ctxOf (filterByRange (sortedPredictions preds) (todayStart + msPerDay)
          (todayStart + msPerDay + msPerDay)).head? := rfl

/-- A context entry never carries the `isToday` tag. -/
theorem ctxOf_filter_isToday (o : Option Pred) :
    (ctxOf o).filter (fun a => a.isToday) = [] := by
  cases o <;> rfl

/-- A context list holds at most one entry. -/
theorem ctxOf_length_le (o : Option Pred) : (ctxOf o).length ≤ 1 := by
  cases o <;> simp [ctxOf]

/-- Members of a context list come from the selected prediction. -/
theorem mem_ctxOf {o : Option Pred} {a : Tagged} (h : a ∈ ctxOf o) :
    ∃ y, o = some y ∧ a = ⟨y, false⟩ := by
  cases o with
  | none => simp [ctxOf] at h
  | some y =>
    refine ⟨y, rfl, ?_⟩
    simpa [ctxOf] using h

/-- A context list is empty exactly when no prediction was selected. -/
theorem ctxOf_eq_nil {o : Option Pred} : ctxOf o = [] ↔ o = none := by
  cases o <;> simp [ctxOf]

/-- Only the today-window predictions survive the `isToday` filter. -/
theorem allTides_filter_isToday (todayStart : ℤ) (preds : List Pred) :
    (allTides todayStart preds).filter (fun a => a.isToday) =
      (filterByRange (sortedPredictions preds) todayStart (todayStart + msPerDay)).map
        (fun t => ⟨t, true⟩) := by
  rw [allTides_eq, List.filter_append, List.filter_append, ctxOf_filter_isToday,
    ctxOf_filter_isToday, List.filter_map]
  rw [show ((fun a : Tagged => a.isToday) ∘ (fun t : Pred => (⟨t, true⟩ : Tagged))) =
    (fun _ => true) from rfl]
  simp

/-- Membership in `filterByRange` is membership plus the window condition. -/
theorem mem_filterByRange {l : List Pred} {start stop : ℤ} {p : Pred} :
    p ∈ filterByRange l start stop ↔ p ∈ l ∧ inWindow start stop p := by
  simp [filterByRange, List.mem_filter, inWindow]

/-- Sorting does not change membership. -/
theorem mem_sortedPredictions {preds : List Pred} {p : Pred} :
    p ∈ sortedPredictions preds ↔ p ∈ preds := by
  simp [sortedPredictions]

/-- A windowed slice of the sorted predictions is time-sorted. -/
theorem filterByRange_sorted (preds : List Pred) (start stop : ℤ) :
    (filterByRange (sortedPredictions preds) start stop).Pairwise timeLE :=
  List.Pairwise.filter _ (List.sorted_insertionSort timeLE preds)

/-- For a time-sorted list, `getLast?` selects a maximal element. -/
theorem sorted_last_max {l : List Pred} (hs : l.Pairwise timeLE) {a : Pred}
    (ha : l.getLast? = some a) : ∀ x ∈ l, x.time ≤ a.time := by
  induction l with
  | nil => simp at ha
  | cons b t ih =>
    cases t with
    | nil =>
      simp only [List.getLast?_singleton, Option.some.injEq] at ha
      intro x hx
      simp only [List.mem_singleton] at hx
      subst hx
      subst ha
      exact le_refl _
    | cons c t2 =>
      rw [List.getLast?_cons_cons] at ha
      have hcons := List.pairwise_cons.mp hs
      intro x hx
      rcases List.mem_cons.mp hx with rfl | hx
      · exact hcons.1 a (getLast?_mem_self ha)
      · exact ih hcons.2 ha x hx

/-- For a time-sorted list, `head?` selects a minimal element. -/
theorem sorted_head_min {l : List Pred} (hs : l.Pairwise timeLE) {a : Pred}
    (ha : l.head? = some a) : ∀ x ∈ l, a.time ≤ x.time := by
  cases l with
  | nil => simp at ha
  | cons b t =>
    simp only [List.head?_cons, Option.some.injEq] at ha
    subst ha
    intro x hx
    rcases List.mem_cons.mp hx with rfl | hx
    · exact le_refl _
    · exact List.rel_of_pairwise_cons hs hx

/-- **C2.** The chart's plotted point set is exactly: the latest
yesterday-prediction (when one exists), then all today-predictions in
ascending time order, then the earliest tomorrow-prediction (when one exists);
only the today points carry the `isToday` tag, and filled markers / numeric
height labels are emitted exactly for `isToday` points, never for the context
points of the adjacent days. -/
theorem c2_chart_point_set (w hh : ℚ) (todayStart now : ℤ) (preds : List Pred) :
    ((allTides todayStart preds).filter (fun a => a.isToday)).map Tagged.pred =
      filterByRange (sortedPredictions preds) todayStart (todayStart + msPerDay) ∧
    (((allTides todayStart preds).filter (fun a => a.isToday)).map Tagged.pred).Pairwise timeLE ∧
    List.Perm (((allTides todayStart preds).filter (fun a => a.isToday)).map Tagged.pred)
      (preds.filter (fun p => decide (todayStart ≤ p.time ∧ p.time < todayStart + msPerDay))) ∧
    (∃ yctx tctx : List Tagged,
      allTides todayStart preds =
        yctx ++ (allTides todayStart preds).filter (fun a => a.isToday) ++ tctx ∧
      yctx.length ≤ 1 ∧ tctx.length ≤ 1 ∧
      (∀ a ∈ yctx, a.isToday = false ∧ a.pred ∈ preds ∧
        inWindow (todayStart - msPerDay) todayStart a.pred ∧
        ∀ p ∈ preds, inWindow (todayStart - msPerDay) todayStart p → p.time ≤ a.pred.time) ∧
      (yctx = [] → ∀ p ∈ preds, ¬ inWindow (todayStart - msPerDay) todayStart p) ∧
      (∀ a ∈ tctx, a.isToday = false ∧ a.pred ∈ preds ∧
        inWindow (todayStart + msPerDay) (todayStart + msPerDay + msPerDay) a.pred ∧
        ∀ p ∈ preds, inWindow (todayStart + msPerDay) (todayStart + msPerDay + msPerDay) p →
          a.pred.time ≤ p.time) ∧
      (tctx = [] → ∀ p ∈ preds,
        ¬ inWindow (todayStart + msPerDay) (todayStart + msPerDay + msPerDay) p)) ∧
    (∀ x y b, ChartOp.marker x y b ∈ chartOps w hh todayStart now preds →
      ∃ pt ∈ mapPoints w hh todayStart (allTides todayStart preds),
        pt.isToday = true ∧ x = pt.x ∧ y = pt.y) ∧
    (∀ v x y, ChartOp.heightLabel v x y ∈ chartOps w hh todayStart now preds →
      ∃ pt ∈ mapPoints w hh todayStart (allTides todayStart preds),
        pt.isToday = true ∧ v = pt.height ∧ x = pt.x) ∧
    (2 ≤ (allTides todayStart preds).length →
      ∀ pt ∈ mapPoints w hh todayStart (allTides todayStart preds), pt.isToday = true →
        ChartOp.marker pt.x pt.y (decide (pt.ptype = "H")) ∈
          chartOps w hh todayStart now preds) := by
  have h1 : ((allTides todayStart preds).filter (fun a => a.isToday)).map Tagged.pred =
      filterByRange (sortedPredictions preds) todayStart (todayStart + msPerDay) := by
    rw [allTides_filter_isToday, List.map_map]
    rw [show (Tagged.pred ∘ (fun t : Pred => (⟨t, true⟩ : Tagged))) = id from rfl, List.map_id]
  refine ⟨h1, ?_, ?_, ?_, ?_, ?_, ?_⟩
  · rw [h1]
    exact filterByRange_sorted preds _ _
  · rw [h1]
    exact (List.perm_insertionSort timeLE preds).filter _
  · refine ⟨ctxOf (filterByRange (sortedPredictions preds)
        (todayStart - msPerDay) todayStart).getLast?,
      ctxOf (filterByRange (sortedPredictions preds) (todayStart + msPerDay)
        (todayStart + msPerDay + msPerDay)).head?, ?_, ctxOf_length_le _, ctxOf_length_le _,
      ?_, ?_, ?_, ?_⟩
    · rw [allTides_filter_isToday]
      exact allTides_eq todayStart preds
    · intro a ha
      obtain ⟨y, hy, rfl⟩ := mem_ctxOf ha
      have hmem := getLast?_mem_self hy
      have hx := mem_filterByRange.mp hmem
      refine ⟨rfl, mem_sortedPredictions.mp hx.1, hx.2, ?_⟩
      intro p hp hw
      exact sorted_last_max (filterByRange_sorted preds _ _) hy p
        (mem_filterByRange.mpr ⟨mem_sortedPredictions.mpr hp, hw⟩)
    · intro hemp p hp hw
      have hnone := ctxOf_eq_nil.mp hemp
      have hempty : filterByRange (sortedPredictions preds)
          (todayStart - msPerDay) todayStart = [] :=
        List.getLast?_eq_none_iff.mp hnone
      have hmem : p ∈ filterByRange (sortedPredictions preds)
          (todayStart - msPerDay) todayStart :=
        mem_filterByRange.mpr ⟨mem_sortedPredictions.mpr hp, hw⟩
      rw [hempty] at hmem
      simp at hmem
    · intro a ha
      obtain ⟨m, hm, rfl⟩ := mem_ctxOf ha
      have hmem := head?_mem_self hm
      have hx := mem_filterByRange.mp hmem
      refine ⟨rfl, mem_sortedPredictions.mp hx.1, hx.2, ?_⟩
      intro p hp hw
      exact sorted_head_min (filterByRange_sorted preds _ _) hm p
        (mem_filterByRange.mpr ⟨mem_sortedPredictions.mpr hp, hw⟩)
    · intro hemp p hp hw
      have hnone := ctxOf_eq_nil.mp hemp
      have hempty : filterByRange (sortedPredictions preds) (todayStart + msPerDay)
          (todayStart + msPerDay + msPerDay) = [] :=
        List.head?_eq_none_iff.mp hnone
      have hmem : p ∈ filterByRange (sortedPredictions preds) (todayStart + msPerDay)
          (todayStart + msPerDay + msPerDay) :=
        mem_filterByRange.mpr ⟨mem_sortedPredictions.mpr hp, hw⟩
      rw [hempty] at hmem
      simp at hmem
  · intro x y b hmem
    by_cases hlen : (allTides todayStart preds).length < 2
    · rw [chartOps_insufficient w hh todayStart now preds hlen] at hmem
      simp at hmem
    · rcases chartOps_mem_cases hlen hmem with hcl | ⟨gh, hcl⟩ | hcl | hcl | ⟨xx, hcl⟩ |
        ⟨v, xx, yy, hcl⟩ | ⟨ss, xx, yy, hcl⟩
      · simp at hcl
      · simp at hcl
      · simp at hcl
      · obtain ⟨pt, hpt, htoday, hcase⟩ := pointOps_mem hcl
        rcases hcase with hcase | hcase
        · simp only [ChartOp.marker.injEq] at hcase
          exact ⟨pt, hpt, htoday, hcase.1, hcase.2.1⟩
        · simp at hcase
      · simp at hcl
      · simp at hcl
      · simp at hcl
  · intro v x y hmem
    by_cases hlen : (allTides todayStart preds).length < 2
    · rw [chartOps_insufficient w hh todayStart now preds hlen] at hmem
      simp at hmem
    · rcases chartOps_mem_cases hlen hmem with hcl | ⟨gh, hcl⟩ | hcl | hcl | ⟨xx, hcl⟩ |
        ⟨vv, xx, yy, hcl⟩ | ⟨ss, xx, yy, hcl⟩
      · simp at hcl
      · simp at hcl
      · simp at hcl
      · obtain ⟨pt, hpt, htoday, hcase⟩ := pointOps_mem hcl
        rcases hcase with hcase | hcase
        · simp at hcase
        · simp only [ChartOp.heightLabel.injEq] at hcase
          exact ⟨pt, hpt, htoday, hcase.1, hcase.2.1⟩
      · simp at hcl
      · simp at hcl
      · simp at hcl
  · intro hge pt hpt htoday
    have hnl : ¬ (allTides todayStart preds).length < 2 := not_lt.mpr hge
    rw [chartOps_drawn w hh todayStart now preds hnl]
    exact List.mem_cons_of_mem _ (List.mem_append_left _ (List.mem_append_left _
      (List.mem_append_left _ (List.mem_append_right _
        (pointOps_mem_of_isToday hpt htoday).1))))

/-- Looking a key up in a singleton-extended or consed group list. -/
theorem getGroup_cons (g : (ℤ × ℤ × ℤ) × List Pred) (gs : List ((ℤ × ℤ × ℤ) × List Pred))
    (k : ℤ × ℤ × ℤ) :
    getGroup (g :: gs) k = if g.1 = k then g.2 else getGroup gs k := by
  by_cases h : g.1 = k
  · rw [if_pos h]
    unfold getGroup
    rw [List.find?_cons_of_pos _ (by simpa using h)]
  · rw [if_neg h]
    unfold getGroup
    rw [List.find?_cons_of_neg _ (by simpa using h)]

/-- `addToGroups` appends the prediction to exactly the addressed group. -/
theorem getGroup_addToGroups (gs : List ((ℤ × ℤ × ℤ) × List Pred)) (k : ℤ × ℤ × ℤ)
    (p : Pred) (q : ℤ × ℤ × ℤ) :
    getGroup (addToGroups gs k p) q =
      if q = k then getGroup gs q ++ [p] else getGroup gs q := by
  induction gs with
  | nil =>
    simp only [addToGroups]
    rw [getGroup_cons]
    by_cases h : q = k
    · have h2 : k = q := h.symm
      simp only [if_pos h, if_pos h2]
      simp [getGroup]
    · have h2 : ¬ k = q := fun he => h (Eq.symm he)
      simp only [if_neg h, if_neg h2]
  | cons g rest ih =>
    simp only [addToGroups]
    by_cases hg : g.1 = k
    · simp only [if_pos hg, getGroup_cons]
      by_cases hq : g.1 = q
      · have hqk : q = k := by rw [← hq, hg]
        simp only [if_pos hq, if_pos hqk]
      · have hqk : ¬ q = k := fun he => hq (by rw [hg, he])
        simp only [if_neg hq, if_neg hqk]
    · simp only [if_neg hg, getGroup_cons, ih]
      by_cases hq : g.1 = q
      · have hqk : ¬ q = k := fun he => hg (by rw [hq, he])
        simp only [if_pos hq, if_neg hqk]
      · simp only [if_neg hq]

/-- Folding the remaining predictions extends each group by exactly its
matching predictions, in order. -/
theorem getGroup_foldl (tz : ℤ) (preds : List Pred)
    (acc : List ((ℤ × ℤ × ℤ) × List Pred)) (k : ℤ × ℤ × ℤ) :
    getGroup (preds.foldl (fun gs p => addToGroups gs (dateKey tz p.time) p) acc) k =
      getGroup acc k ++ preds.filter (fun p => decide (dateKey tz p.time = k)) := by
  induction preds generalizing acc with
  | nil => simp
  | cons p rest ih =>
    rw [List.foldl_cons, ih, getGroup_addToGroups, List.filter_cons]
    by_cases h : k = dateKey tz p.time
    · simp only [if_pos h, if_pos (by simp [h.symm] : decide (dateKey tz p.time = k) = true)]
      simp
    · simp only [if_neg h,
        if_neg (by simp; exact fun hc => h hc.symm : ¬ decide (dateKey tz p.time = k) = true)]

/-- The group of key `k` collects exactly the predictions whose local date key
is `k`, in their original order. -/
theorem dayGroups_getGroup (tz : ℤ) (preds : List Pred) (k : ℤ × ℤ × ℤ) :
    getGroup (dayGroupsList tz preds) k =
      preds.filter (fun p => decide (dateKey tz p.time = k)) := by
  have h := getGroup_foldl tz preds [] k
  simpa [dayGroupsList, getGroup] using h

/-- The keys present after `addToGroups`. -/
theorem addToGroups_keys (gs : List ((ℤ × ℤ × ℤ) × List Pred)) (k : ℤ × ℤ × ℤ) (p : Pred) :
    (addToGroups gs k p).map Prod.fst =
      if k ∈ gs.map Prod.fst then gs.map Prod.fst else gs.map Prod.fst ++ [k] := by
  induction gs with
  | nil => simp [addToGroups]
  | cons g rest ih =>
    simp only [addToGroups]
    by_cases hg : g.1 = k
    · simp only [if_pos hg, List.map_cons]
      rw [if_pos (by simp [hg])]
    · simp only [if_neg hg, List.map_cons, ih]
      by_cases hk : k ∈ rest.map Prod.fst
      · rw [if_pos hk, if_pos (by simp [hk])]
      · rw [if_neg hk, if_neg (by simp [hk]; exact fun he => hg he.symm)]
        simp

/-- `addToGroups` keeps the key list duplicate-free. -/
theorem addToGroups_keys_nodup {gs : List ((ℤ × ℤ × ℤ) × List Pred)}
    (h : (gs.map Prod.fst).Nodup) (k : ℤ × ℤ × ℤ) (p : Pred) :
    ((addToGroups gs k p).map Prod.fst).Nodup := by
  rw [addToGroups_keys]
  by_cases hk : k ∈ gs.map Prod.fst
  · rwa [if_pos hk]
  · rw [if_neg hk]
    rw [List.nodup_append]
    exact ⟨h, List.nodup_singleton k, by simpa using hk⟩

/-- Every group in `addToGroups` output keeps a nonempty tide list. -/
theorem addToGroups_ne_nil {gs : List ((ℤ × ℤ × ℤ) × List Pred)}
    (h : ∀ g ∈ gs, g.2 ≠ []) (k : ℤ × ℤ × ℤ) (p : Pred) :
    ∀ g ∈ addToGroups gs k p, g.2 ≠ [] := by
  induction gs with
  | nil =>
    intro g hg
    simp only [addToGroups, List.mem_singleton] at hg
    subst hg
    simp
  | cons g0 rest ih =>
    intro g hg
    simp only [addToGroups] at hg
    by_cases hg0 : g0.1 = k
    · rw [if_pos hg0] at hg
      rcases List.mem_cons.mp hg with rfl | hg
      · simp
      · exact h g (List.mem_cons_of_mem _ hg)
    · rw [if_neg hg0] at hg
      rcases List.mem_cons.mp hg with rfl | hg
      · exact h g (List.mem_cons_self _ _)
      · exact ih (fun g' hg' => h g' (List.mem_cons_of_mem _ hg')) g hg

/-- The key list of the day groups is duplicate-free. -/
theorem dayGroups_keys_nodup (tz : ℤ) (preds : List Pred) :
    ((dayGroupsList tz preds).map Prod.fst).Nodup := by
  suffices h : ∀ acc : List ((ℤ × ℤ × ℤ) × List Pred), (acc.map Prod.fst).Nodup →
      (((preds.foldl (fun gs p => addToGroups gs (dateKey tz p.time) p) acc)).map
        Prod.fst).Nodup by
    exact h [] (by simp)
  induction preds with
  | nil => intro acc hacc; simpa using hacc
  | cons p rest ih =>
    intro acc hacc
    rw [List.foldl_cons]
    exact ih _ (addToGroups_keys_nodup hacc _ p)

/-- Every day group carries a nonempty tide list. -/
theorem dayGroups_ne_nil (tz : ℤ) (preds : List Pred) :
    ∀ g ∈ dayGroupsList tz preds, g.2 ≠ [] := by
  suffices h : ∀ acc : List ((ℤ × ℤ × ℤ) × List Pred), (∀ g ∈ acc, g.2 ≠ []) →
      ∀ g ∈ preds.foldl (fun gs p => addToGroups gs (dateKey tz p.time) p) acc, g.2 ≠ [] by
    exact h [] (by simp)
  induction preds with
  | nil => intro acc hacc; simpa using hacc
  | cons p rest ih =>
    intro acc hacc
    rw [List.foldl_cons]
    exact ih _ (addToGroups_ne_nil hacc _ p)

/-- With duplicate-free keys, list membership determines the lookup. -/
theorem mem_groups_getGroup {gs : List ((ℤ × ℤ × ℤ) × List Pred)}
    (hnd : (gs.map Prod.fst).Nodup) {k : ℤ × ℤ × ℤ} {ts : List Pred}
    (h : (k, ts) ∈ gs) : getGroup gs k = ts := by
  induction gs with
  | nil => simp at h
  | cons g rest ih =>
    rw [List.map_cons, List.nodup_cons] at hnd
    rcases List.mem_cons.mp h with rfl | h
    · rw [getGroup_cons, if_pos rfl]
    · rw [getGroup_cons]
      have hne : g.1 ≠ k := by
        intro he
        exact hnd.1 (he ▸ (List.mem_map.mpr ⟨(k, ts), h, rfl⟩))
      rw [if_neg hne]
      exact ih hnd.2 h

/-- A nonempty lookup result identifies an actual group entry. -/
theorem getGroup_mem {gs : List ((ℤ × ℤ × ℤ) × List Pred)} {k : ℤ × ℤ × ℤ}
    (h : getGroup gs k ≠ []) : (k, getGroup gs k) ∈ gs := by
  unfold getGroup at *
  rcases hf : gs.find? (fun g => decide (g.1 = k)) with _ | g
  · rw [hf] at h
    simp at h
  · rw [hf] at h ⊢
    have hmem := List.mem_of_find?_eq_some hf
    have hpred : g.1 = k := by simpa using List.find?_some hf
    rw [← hpred]
    exact hmem

/-- Indexing a map over `List.range n` below the bound. -/
theorem rangeMap_getD {α : Type} (n i : ℕ) (hi : i < n) (f : ℕ → α) (d : α) :
    ((List.range n).map f).getD i d = f i := by
  rw [List.getD_eq_getElem?_getD]
  simp [List.getElem?_map, List.getElem?_range, hi]

/-- **C5.** The tide table groups predictions by the local calendar date of
each timestamp (not the UTC date): each group with key `k` holds exactly the
predictions whose local `(year, month, day)` is `k`, every prediction lands in
the group of its own local date, the per-day tide list is sorted ascending by
time, and at the local-midnight boundary a prediction at local
`2025-06-01 23:50` PDT and one at local `2025-06-02 00:10` PDT land in two
different day groups even though their UTC dates coincide. -/
theorem c5_table_local_date_grouping (tz : ℤ) (preds : List Pred) :
    (∀ k ts, (k, ts) ∈ dayGroupsList tz preds →
      ts = preds.filter (fun p => decide (dateKey tz p.time = k)) ∧
      ∀ p ∈ ts, dateKey tz p.time = k) ∧
    (∀ p ∈ preds,
      (dateKey tz p.time, getGroup (dayGroupsList tz preds) (dateKey tz p.time)) ∈
        dayGroupsList tz preds ∧
      p ∈ getGroup (dayGroupsList tz preds) (dateKey tz p.time)) ∧
    (∀ k ts, (k, ts) ∈ dayGroupsList tz preds →
      (List.insertionSort timeLE ts).Pairwise timeLE ∧
      List.Perm (List.insertionSort timeLE ts) ts) ∧
    (dateKey pdtOffsetMs predLateNight.time = (2025, 6, 1) ∧
     dateKey pdtOffsetMs predEarlyMorning.time = (2025, 6, 2) ∧
     dateKey pdtOffsetMs predLateNight.time ≠ dateKey pdtOffsetMs predEarlyMorning.time ∧
     utcDateKey predLateNight.time = utcDateKey predEarlyMorning.time ∧
     (dayGroupsList pdtOffsetMs [predLateNight, predEarlyMorning]).length = 2) := by
  refine ⟨?_, ?_, ?_, by decide⟩
  · intro k ts hmem
    have hget := mem_groups_getGroup (dayGroups_keys_nodup tz preds) hmem
    have heq : ts = preds.filter (fun p => decide (dateKey tz p.time = k)) := by
      rw [← hget, dayGroups_getGroup]
    refine ⟨heq, ?_⟩
    intro p hp
    rw [heq] at hp
    simpa using List.of_mem_filter hp
  · intro p hp
    have hfilter : p ∈ preds.filter
        (fun q => decide (dateKey tz q.time = dateKey tz p.time)) :=
      List.mem_filter.mpr ⟨hp, by simp⟩
    have hget := dayGroups_getGroup tz preds (dateKey tz p.time)
    constructor
    · apply getGroup_mem
      rw [hget]
      intro hempty
      rw [hempty] at hfilter
      simp at hfilter
    · rw [hget]
      exact hfilter
  · intro k ts _
    exact ⟨List.sorted_insertionSort timeLE ts, List.perm_insertionSort timeLE ts⟩

/-- Witness for C5: the late-night prediction lands in the day group of its
own local date. -/
theorem c5_table_local_date_grouping_witness :
    (dateKey pdtOffsetMs predLateNight.time,
      getGroup (dayGroupsList pdtOffsetMs [predLateNight, predEarlyMorning])
        (dateKey pdtOffsetMs predLateNight.time)) ∈
      dayGroupsList pdtOffsetMs [predLateNight, predEarlyMorning] ∧
    predLateNight ∈ getGroup (dayGroupsList pdtOffsetMs [predLateNight, predEarlyMorning])
      (dateKey pdtOffsetMs predLateNight.time) :=
  (c5_table_local_date_grouping pdtOffsetMs [predLateNight, predEarlyMorning]).2.1
    predLateNight (List.mem_cons_self _ _)

/-- **C6.** The tide table emits rows for at most the first 5 day groups in
ascending date order, every row has exactly 4 cells, cell `i` shows the day's
`(i+1)`-th tide (direction marker by `type === 'H'`, height, and the 12-hour
time preferring the server-supplied `time_12hr` string) when the day has more
than `i` tides and the `—` placeholder otherwise; tides beyond the fourth are
not rendered. -/
theorem c6_table_row_shape (tz : ℤ) (fmt : ℤ → String) (preds : List Pred) :
    (createTideTable tz fmt preds).length = min 5 (dayGroupsList tz preds).length ∧
    ((createTideTable tz fmt preds).map Row.key).Pairwise dkLE ∧
    (∀ r ∈ createTideTable tz fmt preds, r.cells.length = 4) ∧
    (∀ r ∈ createTideTable tz fmt preds, ∃ ts : List Pred,
      ts.Pairwise timeLE ∧
      List.Perm ts (preds.filter (fun p => decide (dateKey tz p.time = r.key))) ∧
      ts ≠ [] ∧
      ∀ i < 4, r.cells.getD i Cell.emptyDash =
        (if i < ts.length then
          Cell.tide (if (ts.getD i dummyPred).ptype = "H" then "▲" else "▼")
            (ts.getD i dummyPred).height
            (orFalsy (ts.getD i dummyPred).time12 (fmt (ts.getD i dummyPred).time))
        else Cell.emptyDash)) ∧
    (∀ r ∈ createTideTable tz fmt preds, ∀ g ∈ dayGroupsList tz preds,
      g.1 ∉ (createTideTable tz fmt preds).map Row.key → dkLE r.key g.1) := by
  have hkeys : (createTideTable tz fmt preds).map Row.key =
      ((List.insertionSort groupLE (dayGroupsList tz preds)).take 5).map Prod.fst := by
    simp only [createTideTable, List.map_map]
    rfl
  refine ⟨?_, ?_, ?_, ?_, ?_⟩
  · simp only [createTideTable, List.length_map, List.length_take]
    rw [(List.perm_insertionSort groupLE (dayGroupsList tz preds)).length_eq]
  · rw [hkeys]
    refine List.Pairwise.map _ (fun a b hab => hab) ?_
    exact (List.sorted_insertionSort groupLE _).sublist (List.take_sublist _ _)
  · intro r hr
    simp only [createTideTable] at hr
    obtain ⟨g, hg, rfl⟩ := List.mem_map.mp hr
    simp [mkRow]
  · intro r hr
    simp only [createTideTable] at hr
    obtain ⟨g, hg, rfl⟩ := List.mem_map.mp hr
    have hg' : g ∈ dayGroupsList tz preds :=
      (List.perm_insertionSort groupLE _).mem_iff.mp (List.mem_of_mem_take hg)
    have hpair : (g.1, g.2) ∈ dayGroupsList tz preds := hg'
    have hchar : getGroup (dayGroupsList tz preds) g.1 = g.2 :=
      mem_groups_getGroup (dayGroups_keys_nodup tz preds) hpair
    have hfil : g.2 = preds.filter (fun p => decide (dateKey tz p.time = g.1)) := by
      rw [← hchar, dayGroups_getGroup]
    refine ⟨List.insertionSort timeLE g.2, List.sorted_insertionSort timeLE g.2, ?_, ?_, ?_⟩
    · have hkey : (mkRow fmt g.1 (List.insertionSort timeLE g.2)).key = g.1 := rfl
      rw [hkey, ← hfil]
      exact List.perm_insertionSort timeLE g.2
    · intro hnil
      apply dayGroups_ne_nil tz preds g hg'
      have hlen := (List.perm_insertionSort timeLE g.2).length_eq
      rw [hnil] at hlen
      exact List.eq_nil_of_length_eq_zero hlen.symm
    · intro i hi
      have hcells : (mkRow fmt g.1 (List.insertionSort timeLE g.2)).cells =
          (List.range 4).map (fun j =>
            if j < (List.insertionSort timeLE g.2).length
            then mkCell fmt ((List.insertionSort timeLE g.2).getD j dummyPred)
            else Cell.emptyDash) := rfl
      rw [hcells, rangeMap_getD 4 i hi]
      by_cases hit : i < (List.insertionSort timeLE g.2).length
      · rw [if_pos hit, if_pos hit]
        rfl
      · rw [if_neg hit, if_neg hit]
  · intro r hr g hg hnotin
    simp only [createTideTable] at hr
    obtain ⟨g', hg', rfl⟩ := List.mem_map.mp hr
    have hgs : g ∈ List.insertionSort groupLE (dayGroupsList tz preds) :=
      (List.perm_insertionSort groupLE _).mem_iff.mpr hg
    have hsplit := List.take_append_drop 5 (List.insertionSort groupLE (dayGroupsList tz preds))
    have hpw : ((List.insertionSort groupLE (dayGroupsList tz preds)).take 5 ++
        (List.insertionSort groupLE (dayGroupsList tz preds)).drop 5).Pairwise groupLE := by
      rw [hsplit]
      exact List.sorted_insertionSort groupLE _
    have hdrop : g ∈ (List.insertionSort groupLE (dayGroupsList tz preds)).drop 5 := by
      rw [← hsplit] at hgs
      rcases List.mem_append.mp hgs with htake | hdrop
      · exfalso
        apply hnotin
        rw [hkeys]
        exact List.mem_map.mpr ⟨g, htake, rfl⟩
      · exact hdrop
    exact (List.pairwise_append.mp hpw).2.2 g' hg' g hdrop

/-- Witness for C6: the concrete two-prediction feed yields a first row with
exactly four cells. -/
theorem c6_table_row_shape_witness :
    ((createTideTable pdtOffsetMs fixedRender12 [predLateNight, predEarlyMorning]).headD
        ⟨((0 : ℤ), (0 : ℤ), (0 : ℤ)), []⟩ ∈
      createTideTable pdtOffsetMs fixedRender12 [predLateNight, predEarlyMorning]) ∧
    ((createTideTable pdtOffsetMs fixedRender12 [predLateNight, predEarlyMorning]).headD
        ⟨((0 : ℤ), (0 : ℤ), (0 : ℤ)), []⟩).cells.length = 4 :=
  ⟨by decide,
   (c6_table_row_shape pdtOffsetMs fixedRender12 [predLateNight, predEarlyMorning]).2.2.1 _
     (by decide)⟩

/-- The default head of a nonempty list is a member. -/
theorem headD_mem {α : Type} {l : List α} (h : l ≠ []) (d : α) : l.headD d ∈ l := by
  cases l with
  | nil => exact absurd rfl h
  | cons a t => exact List.mem_cons_self a t

/-- Witness for C2: with two today-predictions the chart is drawn and the
first mapped point, which is tagged `isToday`, receives its filled marker. -/
theorem c2_chart_point_set_witness :
    2 ≤ (allTides 0 exPreds).length ∧
    ((mapPoints 700 180 0 (allTides 0 exPreds)).headD dummyPoint ∈
      mapPoints 700 180 0 (allTides 0 exPreds)) ∧
    ((mapPoints 700 180 0 (allTides 0 exPreds)).headD dummyPoint).isToday = true ∧
    ChartOp.marker ((mapPoints 700 180 0 (allTides 0 exPreds)).headD dummyPoint).x
      ((mapPoints 700 180 0 (allTides 0 exPreds)).headD dummyPoint).y
      (decide (((mapPoints 700 180 0 (allTides 0 exPreds)).headD dummyPoint).ptype = "H")) ∈
      chartOps 700 180 0 0 exPreds :=
  ⟨by decide, headD_mem (by decide) dummyPoint, by decide,
   (c2_chart_point_set 700 180 0 0 exPreds).2.2.2.2.2.2 (by decide) _
     (headD_mem (by decide) dummyPoint) (by decide)⟩

/-- **C7.** For every tide fetch outcome: on a parsed `status === 'ok'`
response the tide state field is replaced with the payload, the connectivity
flag is set and the last-updated timestamp is set to now; on every other
outcome (non-ok status, network error, malformed JSON) the placeholder setter
is invoked and the stored tide data and timestamp are left unchanged (only the
connectivity flag may change). -/
theorem c7_tide_fetch_state (D : Type) (s : AppTideState D) (r : TideFetchResult D)
    (now : ℤ) :
    (∀ d, r = TideFetchResult.ok d →
      (loadTideData s r now).1.tideData = some d ∧
      (loadTideData s r now).1.lastUpdate = some now ∧
      (loadTideData s r now).1.isConnected = true ∧
      TideAction.displayTideData d ∈ (loadTideData s r now).2) ∧
    ((∀ d, r ≠ TideFetchResult.ok d) →
      TideAction.setTidePlaceholders ∈ (loadTideData s r now).2 ∧
      (loadTideData s r now).1.tideData = s.tideData ∧
      (loadTideData s r now).1.lastUpdate = s.lastUpdate) := by
  cases r with
  | ok d =>
    refine ⟨?_, ?_⟩
    · intro d' hd
      injection hd with h
      subst h
      exact ⟨rfl, rfl, rfl, List.mem_singleton.mpr rfl⟩
    · intro hne
      exact absurd rfl (hne d)
  | errStatus m =>
    exact ⟨(fun d hd => nomatch hd), fun _ => ⟨List.mem_singleton.mpr rfl, rfl, rfl⟩⟩
  | netError =>
    refine ⟨(fun d hd => nomatch hd), fun _ => ⟨?_, rfl, rfl⟩⟩
    exact List.mem_cons_of_mem _ (List.mem_singleton.mpr rfl)

/-- Witness for C7: a network error leaves the stored tide data and timestamp
untouched and invokes the placeholder setter. -/
theorem c7_tide_fetch_state_witness :
    TideAction.setTidePlaceholders ∈
      (loadTideData (⟨some 7, some 5, true⟩ : AppTideState ℕ)
        TideFetchResult.netError 0).2 ∧
    (loadTideData (⟨some 7, some 5, true⟩ : AppTideState ℕ)
        TideFetchResult.netError 0).1.tideData =
      (⟨some 7, some 5, true⟩ : AppTideState ℕ).tideData ∧
    (loadTideData (⟨some 7, some 5, true⟩ : AppTideState ℕ)
        TideFetchResult.netError 0).1.lastUpdate =
      (⟨some 7, some 5, true⟩ : AppTideState ℕ).lastUpdate :=
  (c7_tide_fetch_state ℕ ⟨some 7, some 5, true⟩ TideFetchResult.netError 0).2
    (fun _ h => nomatch h)

/-- **C8.** A completed drag changes the view index only when the drag state
is active, the absolute displacement `|startX - endX|` strictly exceeds the
threshold (50 px for the panel controller, 30 px for the dial controller) and
the move stays in bounds; any change is by exactly one step in the drag
direction; a displacement of exactly the threshold changes nothing; and an
index in `{0, 1}` stays in `{0, 1}`. -/
theorem c8_swipe_threshold (isDragging : Bool) (startX currentX : ℚ) (v : ℤ) (thr : ℚ) :
    (endDragStep thr isDragging startX currentX v ≠ v →
      isDragging = true ∧ thr < |startX - currentX| ∧
      (endDragStep thr isDragging startX currentX v = v + 1 ∨
       endDragStep thr isDragging startX currentX v = v - 1) ∧
      (endDragStep thr isDragging startX currentX v = v + 1 →
        0 < startX - currentX ∧ v < 1) ∧
      (endDragStep thr isDragging startX currentX v = v - 1 →
        startX - currentX < 0 ∧ 0 < v)) ∧
    (|startX - currentX| ≤ thr → endDragStep thr isDragging startX currentX v = v) ∧
    ((v = 0 ∨ v = 1) →
      endDragStep thr isDragging startX currentX v = 0 ∨
      endDragStep thr isDragging startX currentX v = 1) ∧
    initSwipeEndDrag = endDragStep 50 ∧
    initDialSwipeEndDrag = endDragStep 30 := by
  have hdrag : ¬ isDragging = false → isDragging = true := by
    cases isDragging <;> simp
  refine ⟨?_, ?_, ?_, rfl, rfl⟩
  · intro hne
    simp only [endDragStep] at hne ⊢
    split_ifs at hne ⊢ with h1 h2 h3 h4
    · exact absurd rfl hne
    · exact ⟨hdrag h1, h2, Or.inl rfl, fun _ => h3, fun hc => absurd hc (by omega)⟩
    · exact ⟨hdrag h1, h2, Or.inr rfl, fun hc => absurd hc (by omega), fun _ => h4⟩
    · exact absurd rfl hne
    · exact absurd rfl hne
  · intro hle
    simp only [endDragStep]
    split_ifs with h1 h2 h3 h4
    · rfl
    · exact absurd h2 (not_lt.mpr hle)
    · exact absurd h2 (not_lt.mpr hle)
    · rfl
    · rfl
  · intro hv
    simp only [endDragStep]
    split_ifs with h1 h2 h3 h4
    · exact hv
    · rcases h3 with ⟨-, h3⟩
      omega
    · rcases h4 with ⟨-, h4⟩
      omega
    · exact hv
    · exact hv

/-- Witness for C8: a drag of exactly 50 px with the panel threshold changes
nothing. -/
theorem c8_swipe_threshold_witness :
    |(50 : ℚ) - 0| ≤ 50 ∧ endDragStep 50 true 50 0 0 = 0 :=
  ⟨by norm_num, (c8_swipe_threshold true 50 0 0 50).2.1 (by norm_num)⟩

/-- C9 counterexample: the claim fails as stated on the
`src/frontend/js/app.js` variant, whose `initApp` arms the astronomy timer
hourly (3600000 ms, not 43200000 ms) and arms no weather timer and no
network-connectivity timer at all. -/
theorem c9_counterexample_appjs_timers :
    TimerSpec.mk "loadAstronomyData" 3600000 ∈ appJsInitTimers ∧
    (3600000 : ℕ) ≠ 43200000 ∧
    (∀ t ∈ appJsInitTimers, t.callback ≠ "loadWeatherData") ∧
    (∀ t ∈ appJsInitTimers, t.callback ≠ "checkNetworkConnectivity") := by
  decide

/-- **C9 (amended).** The consolidated variant (`src/unnamed/part_000`) arms
exactly the four claimed fixed-interval re-polling timers — tide 360000 ms,
weather 600000 ms, astronomy 43200000 ms, network check 60000 ms — while the
`src/frontend/js/app.js` variant arms only the tide timer (360000 ms) and an
hourly astronomy timer (3600000 ms); every armed period is a fixed constant,
with no exponential backoff. -/
theorem c9_fixed_interval_timers :
    (∀ t ∈ claimedPollTimers, ∃ u ∈ part000InitTimers,
      u.callback = t.1 ∧ u.periodMs = t.2) ∧
    (∀ u ∈ part000InitTimers, ∀ t ∈ claimedPollTimers,
      u.callback = t.1 → u.periodMs = t.2) ∧
    (∃ u ∈ appJsInitTimers, u.callback = "loadTideData" ∧ u.periodMs = 360000) ∧
    (∃ u ∈ appJsInitTimers, u.callback = "loadAstronomyData" ∧ u.periodMs = 3600000) ∧
    (∀ u ∈ appJsInitTimers, u.callback ≠ "loadWeatherData" ∧
      u.callback ≠ "checkNetworkConnectivity") := by
  decide

/-- **C10.** `formatTime` is total: `null`/`undefined`/empty input yields
`'--:--'`; input containing `AM` or `PM` is returned unchanged; any other
unparseable string yields `'--:--'`; otherwise the 12-hour rendering of the
parsed timestamp is returned; and provided the host renderer always emits a
string containing `AM`/`PM` (true of `toLocaleTimeString('en-US', {hour12:
true})`) and `'--:--'` never parses, `formatTime` is idempotent on its own
outputs. -/
theorem c10_formatTime_total (parse : String → Option ℤ) (render12 : ℤ → String) :
    (formatTime parse render12 none = "--:--") ∧
    (formatTime parse render12 (some "") = "--:--") ∧
    (∀ s, hasAMPM s = true → formatTime parse render12 (some s) = s) ∧
    (∀ s, s ≠ "" → hasAMPM s = false → parse s = none →
      formatTime parse render12 (some s) = "--:--") ∧
    (∀ s t, s ≠ "" → hasAMPM s = false → parse s = some t →
      formatTime parse render12 (some s) = render12 t) ∧
    ((∀ t, hasAMPM (render12 t) = true) → parse "--:--" = none →
      ∀ x, formatTime parse render12 (some (formatTime parse render12 x)) =
        formatTime parse render12 x) := by
  refine ⟨rfl, rfl, ?_, ?_, ?_, ?_⟩
  · intro s hs
    by_cases hemp : s = ""
    · rw [hemp] at hs
      exact absurd hs (by decide)
    · simp [formatTime, hemp, hs]
  · intro s hemp hampm hparse
    simp [formatTime, hemp, hampm, hparse]
  · intro s t hemp hampm hparse
    simp [formatTime, hemp, hampm, hparse]
  · intro hrender hparse x
    have hdash : formatTime parse render12 (some "--:--") = "--:--" := by
      have h1 : hasAMPM "--:--" = false := by decide
      simp [formatTime, h1, hparse]
    rcases x with _ | s
    · simpa [formatTime] using hdash
    · by_cases hemp : s = ""
      · subst hemp
        simpa [formatTime] using hdash
      · by_cases hampm : hasAMPM s = true
        · simp [formatTime, hemp, hampm]
        · rcases hp : parse s with _ | t
          · have hout : formatTime parse render12 (some s) = "--:--" := by
              simp [formatTime, hemp, hampm, hp]
            rw [hout]
            exact hdash
          · have hout : formatTime parse render12 (some s) = render12 t := by
              simp [formatTime, hemp, hampm, hp]
            rw [hout]
            have hr := hrender t
            have hrne : render12 t ≠ "" := by
              intro he
              rw [he] at hr
              exact absurd hr (by decide)
            simp [formatTime, hrne, hr]

/-- Witness for C10: a string already containing `PM` passes through
unchanged. -/
theorem c10_formatTime_total_witness :
    hasAMPM "3:30 PM" = true ∧
    formatTime rejectAllParse fixedRender12 (some "3:30 PM") = "3:30 PM" :=
  ⟨by decide,
   (c10_formatTime_total rejectAllParse fixedRender12).2.2.1 "3:30 PM" (by decide)⟩

end TideWatch